import Mathlib

/-!
Verification of the commit-reveal card-distribution coordinator of the
5-seat Texas Hold'em frontend (src/packages/frontend/src/components/LifecyclePanel.tsx).

The embedding models the pure data flow of the coordinator: the secret
store (localStorage), the key derivation, the commitment codec (SHA3-256
over the UTF-8 bytes of the secret), the request-cards action, the
action-slot invocation protocol, the auto-reveal effect as a trace state
machine, the poll snapshot update, and the progress denominator.
-/

/-! ## SHA3-256 (Keccak), modelling the sha3_256 function of noble-hashes
used by LifecyclePanel.tsx. Bytes are Nat below 256, lanes are Nat below 2^64. -/

/-- Rotate a 64-bit lane left by n bits. -/
def rotl64 (x n : Nat) : Nat :=
  ((x <<< (n % 64)) ||| (x >>> (64 - n % 64))) % (2 ^ 64)

/-- One step of the Keccak LFSR register over x^8 + x^6 + x^5 + x^4 + 1
(FIPS 202, algorithm 5). -/
def rcRegStep (R : Nat) : Nat :=
  let R2 := R <<< 1
  if R2 &&& 0x100 ≠ 0 then (R2 ^^^ 0x71) &&& 0xFF else R2 &&& 0xFF

/-- The LFSR register after t steps, starting from 1. -/
def rcReg : Nat → Nat
  | 0 => 1
  | t + 1 => rcRegStep (rcReg t)

/-- Bit t of the Keccak round-constant bit sequence. -/
def rcBit (t : Nat) : Nat := rcReg t &&& 1

/-- Round constant of round i: bit rc(7 i + j) placed at lane bit
2 ^ j - 1, for j = 0..6. -/
def roundConstant (i : Nat) : Nat :=
  (List.range 7).foldl (fun acc j => acc ||| (rcBit (7 * i + j) <<< (2 ^ j - 1))) 0

/-- The 24 Keccak round constants. -/
def keccakRC : List Nat :=
  (List.range 24).map roundConstant

/-- The lane-position walk of the rho step: start at (1, 0), then
(x, y) goes to (y, (2 x + 3 y) mod 5). -/
def rhoPosition : Nat → Nat × Nat
  | 0 => (1, 0)
  | t + 1 =>
    let p := rhoPosition t
    (p.2, (2 * p.1 + 3 * p.2) % 5)

/-- Keccak rho rotation offsets, indexed by x + 5 * y: position t of the
walk receives offset (t + 1)(t + 2)/2 mod 64, and lane (0, 0) keeps 0. -/
def rhoOffsets : List Nat :=
  (List.range 24).foldl
    (fun acc t =>
      let p := rhoPosition t
      acc.set (p.1 + 5 * p.2) ((t + 1) * (t + 2) / 2 % 64))
    (List.replicate 25 0)

/-- Lane accessor for a 25-lane state, coordinates x and y. -/
def lane (A : List Nat) (x y : Nat) : Nat := A.getD (x + 5 * y) 0

/-- Keccak theta step. -/
def theta (A : List Nat) : List Nat :=
  let C := (List.range 5).map (fun x =>
    (lane A x 0) ^^^ (lane A x 1) ^^^ (lane A x 2) ^^^ (lane A x 3) ^^^ (lane A x 4))
  let D := (List.range 5).map (fun x =>
    (C.getD ((x + 4) % 5) 0) ^^^ rotl64 (C.getD ((x + 1) % 5) 0) 1)
  (List.range 25).map (fun i => ((A.getD i 0) ^^^ (D.getD (i % 5) 0)) % (2 ^ 64))

/-- Keccak rho and pi steps combined: output lane (X, Y) with X = y and
Y = (2 x + 3 y) mod 5 is the rotated input lane (x, y). -/
def rhoPi (A : List Nat) : List Nat :=
  (List.range 25).map (fun j =>
    let X := j % 5
    let Y := j / 5
    let y := X
    let x := (3 * (Y + 2 * y)) % 5
    rotl64 (lane A x y) (rhoOffsets.getD (x + 5 * y) 0))

/-- Keccak chi step. -/
def chi (B : List Nat) : List Nat :=
  (List.range 25).map (fun j =>
    let x := j % 5
    let y := j / 5
    (lane B x y) ^^^ (((lane B ((x + 1) % 5) y) ^^^ (2 ^ 64 - 1)) &&& (lane B ((x + 2) % 5) y)))

/-- Keccak iota step: mix the round constant into lane (0, 0). -/
def iota (rc : Nat) (A : List Nat) : List Nat :=
  A.set 0 ((A.getD 0 0) ^^^ rc)

/-- One Keccak round. -/
def keccakRound (A : List Nat) (rc : Nat) : List Nat :=
  iota rc (chi (rhoPi (theta A)))

/-- The Keccak-f[1600] permutation: 24 rounds. -/
def keccakF (A : List Nat) : List Nat :=
  keccakRC.foldl keccakRound A

/-- Interpret up to 8 bytes as a little-endian 64-bit lane. -/
def bytesToLane (bs : List Nat) : Nat :=
  bs.foldr (fun b acc => acc * 256 + b) 0

/-- SHA3 pad10*1 padding with domain separator 0x06, to a multiple of the
136-byte rate. -/
def sha3Pad (msg : List Nat) : List Nat :=
  let q := 136 - msg.length % 136
  if q = 1 then msg ++ [0x86]
  else msg ++ [0x06] ++ List.replicate (q - 2) 0 ++ [0x80]

/-- Absorb one 136-byte block into the state and permute. -/
def absorbBlock (A : List Nat) (block : List Nat) : List Nat :=
  let lanes := (List.range 17).map (fun i => bytesToLane ((block.drop (8 * i)).take 8))
  keccakF ((List.range 25).map (fun i =>
    if i < 17 then (A.getD i 0) ^^^ (lanes.getD i 0) else A.getD i 0))

/-- Absorb a padded message (length a multiple of 136) block by block. -/
def absorbAll (A : List Nat) (padded : List Nat) : List Nat :=
  if padded = [] then A
  else absorbAll (absorbBlock A (padded.take 136)) (padded.drop 136)
termination_by padded.length
decreasing_by
  simp only [List.length_drop]
  exact Nat.sub_lt (List.length_pos.mpr (by assumption)) (by decide)

/-- SHA3-256 of a byte list: absorb the padded message into the all-zero
state, then squeeze the first 32 bytes (little-endian per lane). -/
def sha3_256 (msg : List Nat) : List Nat :=
  let A := absorbAll (List.replicate 25 0) (sha3Pad msg)
  (List.range 32).map (fun j => (A.getD (j / 8) 0) / 256 ^ (j % 8) % 256)

/-! ## UTF-8 encoding, modelling the TextEncoder used by LifecyclePanel.tsx. -/

/-- UTF-8 encoding of one unicode scalar value. -/
def utf8EncodeChar (c : Char) : List Nat :=
  let n := c.toNat
  if n < 0x80 then [n]
  else if n < 0x800 then
    [0xC0 ||| (n >>> 6), 0x80 ||| (n &&& 0x3F)]
  else if n < 0x10000 then
    [0xE0 ||| (n >>> 12), 0x80 ||| ((n >>> 6) &&& 0x3F), 0x80 ||| (n &&& 0x3F)]
  else
    [0xF0 ||| (n >>> 18), 0x80 ||| ((n >>> 12) &&& 0x3F),
     0x80 ||| ((n >>> 6) &&& 0x3F), 0x80 ||| (n &&& 0x3F)]

/-- UTF-8 encoding of a string, as produced by TextEncoder.encode. -/
def utf8Encode (s : String) : List Nat :=
  (s.data.map utf8EncodeChar).flatten

/-! ## Game phases.
Modelled from the spec: the GAME_PHASES enumeration comes from the module
src/packages/frontend/src/config/contracts, which is not under src/; the
spec fixes the order WAITING, COMMIT, REVEAL, PREFLOP, FLOP, TURN, RIVER,
SHOWDOWN with phases below PREFLOP meaning cards not yet dealt, and the
PokerTable component pins PREFLOP at 3. -/

namespace GAME_PHASES

def WAITING : Nat := 0

def COMMIT : Nat := 1

def REVEAL : Nat := 2

def PREFLOP : Nat := 3

def FLOP : Nat := 4

def TURN : Nat := 5

def RIVER : Nat := 6

def SHOWDOWN : Nat := 7

end GAME_PHASES

/-! ## SecretStore: localStorage as an association list, and the key
derivation, load, save and secret-generation functions of
LifecyclePanel.tsx. A missing player identity (null in the source) is
modelled as the empty string, which the source treats the same way
(both are falsy). -/

/-- The browser localStorage, modelled as an association list from keys to
stored string values. -/
def SecretStore := List (String × String)

/-- Read a key from the store. -/
def storeGet (store : SecretStore) (k : String) : Option String :=
  List.lookup k store

/-- Write a key into the store, replacing any previous binding. -/
def storeSet (store : SecretStore) (k v : String) : SecretStore :=
  (k, v) :: (store : List (String × String)).filter (fun kv => kv.1 ≠ k)

/-- Remove a key from the store. -/
def storeRemove (store : SecretStore) (k : String) : SecretStore :=
  (store : List (String × String)).filter (fun kv => kv.1 ≠ k)

/-- Lower-casing of a string, modelling the toLowerCase call of the source
on the ASCII identifiers used as keys. -/
def lowerStr (s : String) : String :=
  String.mk (s.data.map Char.toLower)

/-- getSecretStorageKey of LifecyclePanel.tsx: the whole interpolated key
is lower-cased; a missing table address or player address yields no key. -/
def getSecretStorageKey (tableAddress playerAddress : String) (handNumber : Nat) :
    Option String :=
  if tableAddress = "" ∨ playerAddress = "" then none
  else some (lowerStr ("holdem_secret_" ++ tableAddress ++ "_" ++ playerAddress ++ "_"
    ++ toString handNumber))

/-- loadStoredSecret of LifecyclePanel.tsx: a missing key, a missing entry
or a storage failure all degrade to the empty string. -/
def loadStoredSecret (tableAddress playerAddress : String) (handNumber : Nat)
    (store : SecretStore) : String :=
  match getSecretStorageKey tableAddress playerAddress handNumber with
  | none => ""
  | some k => (storeGet store k).getD ""

/-- saveSecret of LifecyclePanel.tsx: overwrite on conflict; an empty
secret signals removal; a missing key is a no-op. -/
def saveSecret (tableAddress playerAddress : String) (handNumber : Nat)
    (secret : String) (store : SecretStore) : SecretStore :=
  match getSecretStorageKey tableAddress playerAddress handNumber with
  | none => store
  | some k => if secret ≠ "" then storeSet store k secret else storeRemove store k

/-- One lower-case hex digit, as produced by toString(16). -/
def hexChar (n : Nat) : Char :=
  if n < 10 then Char.ofNat (48 + n) else Char.ofNat (87 + n)

/-- generateSecret of LifecyclePanel.tsx. The crypto randomness is passed
in: some list of 32 bytes when window.crypto is available (each rendered
as two lower-case hex digits, as toString(16).padStart(2, the zero digit)
does for a byte), otherwise the Math.random fallback string. -/
def generateSecret (randomBytes : Option (List Nat)) (fallback : String) : String :=
  match randomBytes with
  | some bs => String.join (bs.map (fun b => String.mk [hexChar (b / 16 % 16), hexChar (b % 16)]))
  | none => fallback

/-! ## CommitmentCodec and the request-cards action. -/

/-- hashSecretToBytes of LifecyclePanel.tsx: null for the empty secret,
otherwise the SHA3-256 digest of the UTF-8 bytes of the secret text. -/
def hashSecretToBytes (secret : String) : Option (List Nat) :=
  if secret = "" then none
  else some (sha3_256 (utf8Encode secret))

/-- Observable events of the request-cards action, in the order the source
performs them: the SecretStore write, then the collaborator commit call. -/
inductive RCEvent where
  | persist (key secret : String)
  | submit (bytes : List Nat)
deriving DecidableEq, Repr

/-- Result of one run of handleRequestCards: the updated store, the
commitment bytes submitted to the collaborator (none when the action threw
before submitting), and the ordered event trace. -/
structure RCResult where
  store : SecretStore
  submitted : Option (List Nat)
  events : List RCEvent

/-- handleRequestCards of LifecyclePanel.tsx, with the freshly generated
secret passed in: it saves the secret under the (table, player, hand) key,
hashes it, and submits the hash to the collaborator; a null hash (empty
secret) throws before the submit. -/
def handleRequestCards (tableAddress playerAddress : String) (handNumber : Nat)
    (newSecret : String) (store : SecretStore) : RCResult :=
  let store2 := saveSecret tableAddress playerAddress handNumber newSecret store
  let persistEvents : List RCEvent :=
    match getSecretStorageKey tableAddress playerAddress handNumber with
    | some k => [RCEvent.persist k newSecret]
    | none => []
  match hashSecretToBytes newSecret with
  | none => ⟨store2, none, persistEvents⟩
  | some bytes => ⟨store2, some bytes, persistEvents ++ [RCEvent.submit bytes]⟩


/-! ## The ActionSlot and the action-invocation protocol. -/

/-- The five lifecycle action tags of LifecyclePanel.tsx. -/
inductive ActionName where
  | start
  | commit
  | reveal
  | leave
  | sitout
deriving DecidableEq, Repr

/-- The coordinator state touched by runLifecycleAction: the ActionSlot
(activeAction) and the status message. -/
structure PanelState where
  activeAction : Option ActionName
  status : Option String
deriving DecidableEq, Repr

/-- runLifecycleAction of LifecyclePanel.tsx, applied to a prior panel
state. The body never inspects the prior activeAction: it sets the slot,
clears the status, always awaits the collaborator action (the Except
argument is its outcome), records a success or failure status, and clears
the slot in the finally block. The Bool of the result records whether the
underlying collaborator call was invoked. -/
def runLifecycleAction (s : PanelState) (name : ActionName)
    (outcome : Except String Unit) : PanelState × Bool :=
  let started : PanelState := { s with activeAction := some name, status := none }
  let finished : PanelState :=
    match outcome with
    | Except.ok _ => { started with status := some "Success! Refreshing..." }
    | Except.error msg => { started with status := some msg }
  ({ finished with activeAction := none }, true)

/-- The startDisabled predicate of LifecyclePanel.tsx. -/
def startDisabled (phase : Nat) (isPaused : Bool) (activeSeats : Nat)
    (canStartHand : Bool) (activeAction : Option ActionName) : Bool :=
  phase != GAME_PHASES.WAITING || isPaused || activeSeats < 2 || !canStartHand
    || activeAction != none

/-- The requestCardsDisabled predicate of LifecyclePanel.tsx. -/
def requestCardsDisabled (phase : Nat) (isActivePlayer hasCommitted : Bool)
    (activeAction : Option ActionName) : Bool :=
  phase != GAME_PHASES.COMMIT || !isActivePlayer || hasCommitted || activeAction != none

/-- The disabled predicate of the sit-toggle and both leave buttons of
LifecyclePanel.tsx: each is exactly activeAction not being null. -/
def controlsDisabled (activeAction : Option ActionName) : Bool :=
  activeAction != none

/-! ## The auto-reveal effect as a trace state machine.
The useEffect of LifecyclePanel.tsx (lines 154-176) re-runs whenever its
inputs change; React runs the cleanup of the previous run (which clears
any pending debounce timeout) before the new body. The body arms a 500ms
timeout only when its guard passes, and marks autoRevealTriggeredRef with
the current hand number at arming time, before the timeout elapses. A
separate timer-fire event models the timeout elapsing, which invokes the
reveal action for the hand number captured at arming time. -/

/-- The inputs the auto-reveal effect reads on one evaluation. -/
structure ARInputs where
  phase : Nat
  storedSecret : String
  playerHandIdx : Int
  hasRevealed : Bool
  activeAction : Option ActionName
  handNumber : Nat
deriving DecidableEq, Repr

/-- The guard of the auto-reveal effect body, given the current value of
autoRevealTriggeredRef. -/
def autoRevealCond (inp : ARInputs) (triggered : Nat) : Bool :=
  (inp.phase == GAME_PHASES.REVEAL) && (inp.storedSecret != "") && (inp.playerHandIdx ≥ 0)
    && !inp.hasRevealed && (inp.activeAction == none) && (triggered != inp.handNumber)

/-- The auto-reveal machine state: the ref value, the pending debounce
timer (carrying the hand number captured at arming time), and the hand
numbers for which the reveal action has been invoked, in order. -/
structure ARState where
  triggered : Nat
  pending : Option Nat
  fires : List Nat
deriving DecidableEq, Repr

/-- The initial auto-reveal state of a freshly mounted panel:
autoRevealTriggeredRef starts at 0, no timer, no reveal invoked. -/
def ARState.init : ARState := ⟨0, none, []⟩

/-- Events of the auto-reveal machine: an effect re-evaluation with the
inputs it reads, or the pending debounce timer elapsing. -/
inductive AREvent where
  | evaluate (inp : ARInputs)
  | timerFire
deriving DecidableEq, Repr

/-- One step of the auto-reveal machine. An evaluation first runs the
previous cleanup (clearTimeout), then arms a fresh timer and marks the ref
if the guard passes. A timer fire invokes the reveal action for the
captured hand number. -/
def arStep (s : ARState) (e : AREvent) : ARState :=
  match e with
  | AREvent.evaluate inp =>
    let s2 : ARState := { s with pending := none }
    if autoRevealCond inp s2.triggered then
      { s2 with triggered := inp.handNumber, pending := some inp.handNumber }
    else s2
  | AREvent.timerFire =>
    match s.pending with
    | some h => { s with pending := none, fires := s.fires ++ [h] }
    | none => s

/-- Run the auto-reveal machine over a list of events. -/
def arRun (s : ARState) (es : List AREvent) : ARState :=
  es.foldl arStep s

/-- Whether an event keeps the hand number fixed at h: every evaluation
reads hand number h (timer fires carry no inputs). -/
def evHand (h : Nat) : AREvent → Bool
  | AREvent.evaluate inp => inp.handNumber == h
  | AREvent.timerFire => true

/-- Whether an evaluation reads an absent stored secret. -/
def evNoSecret : AREvent → Bool
  | AREvent.evaluate inp => inp.storedSecret == ""
  | AREvent.timerFire => true

/-! ## Poll snapshot and progress derivation. -/

/-- The cached snapshot of the three polled vectors. -/
structure Snapshot where
  commitStatus : List Bool
  revealStatus : List Bool
  playersInHand : List Nat
deriving DecidableEq, Repr

/-- fetchStatus of LifecyclePanel.tsx, as a pure update of the cached
snapshot given the outcomes of the three parallel sub-fetches: the three
setters run only after Promise.all succeeds, so one failed sub-fetch
leaves the whole previous snapshot in place, and the catch block swallows
the error (the function is total: no exception propagates). -/
def fetchStatus (prev : Snapshot) (commits : Except String (List Bool))
    (reveals : Except String (List Bool)) (players : Except String (List Nat)) :
    Snapshot :=
  match commits, reveals, players with
  | Except.ok c, Except.ok r, Except.ok p => ⟨c, r, p⟩
  | _, _, _ => prev

/-- The committedCount derivation of LifecyclePanel.tsx. -/
def committedCount (commitStatus : List Bool) : Nat :=
  (commitStatus.filter id).length

/-- The totalPlayers derivation of LifecyclePanel.tsx: the JavaScript
chain playersInHand.length, else committedCount, else 1, where a numeric
value is falsy exactly when it is 0. -/
def totalPlayers (playersInHand : List Nat) (commitStatus : List Bool) : Nat :=
  if playersInHand.length ≠ 0 then playersInHand.length
  else if committedCount commitStatus ≠ 0 then committedCount commitStatus
  else 1

/-! ## The REVEAL-phase card rendering. -/

/-- The four mutually exclusive bodies of the REVEAL-phase card of
LifecyclePanel.tsx, in source order of the conditional chain. -/
inductive RevealCardView where
  | success
  | revealInFlight
  | preparing
  | advisory
deriving DecidableEq, Repr

/-- The REVEAL-phase card conditional chain of LifecyclePanel.tsx
(lines 380-399): revealed, else reveal in flight, else stored secret
present, else the unrecoverable advisory. -/
def renderRevealCard (hasRevealed : Bool) (activeAction : Option ActionName)
    (storedSecret : String) : RevealCardView :=
  if hasRevealed then RevealCardView.success
  else if activeAction == some ActionName.reveal then RevealCardView.revealInFlight
  else if storedSecret ≠ "" then RevealCardView.preparing
  else RevealCardView.advisory

/-! ## Helper lemmas. -/

/-- The SHA3-256 digest always has exactly 32 bytes. -/
theorem sha3_256_length (msg : List Nat) : (sha3_256 msg).length = 32 := by
  simp [sha3_256]

/-- Writing a key and reading it back yields the written value. -/
theorem storeGet_storeSet_self (store : SecretStore) (k v : String) :
    storeGet (storeSet store k v) k = some v := by
  simp [storeGet, storeSet, List.lookup]

/-- Lower-casing distributes over string append. -/
theorem lowerStr_append (a b : String) :
    lowerStr (a ++ b) = lowerStr a ++ lowerStr b := by
  apply String.ext
  simp [lowerStr, String.data_append]

/-- A string with the same lower-casing as a nonempty string is nonempty. -/
theorem lowerStr_ne_empty (p pc : String) (hp : p ≠ "")
    (hpc : lowerStr pc = lowerStr p) : pc ≠ "" := by
  intro hx
  apply hp
  apply String.ext
  have hdata : pc.data.map Char.toLower = p.data.map Char.toLower :=
    congrArg String.data hpc
  rw [hx] at hdata
  simp at hdata
  simp [hdata]

/-- The derived storage key, in the nonempty case. -/
def secretKey (tableAddress playerAddress : String) (handNumber : Nat) : String :=
  lowerStr ("holdem_secret_" ++ tableAddress ++ "_" ++ playerAddress ++ "_"
    ++ toString handNumber)

/-- With a nonempty table and player the key derivation succeeds. -/
theorem getSecretStorageKey_eq (t p : String) (h : Nat) (ht : t ≠ "") (hp : p ≠ "") :
    getSecretStorageKey t p h = some (secretKey t p h) := by
  simp [getSecretStorageKey, secretKey, ht, hp]

/-- Key derivation is invariant under re-casing of the player identity. -/
theorem secretKey_congr (t p pc : String) (h : Nat)
    (hpc : lowerStr pc = lowerStr p) : secretKey t pc h = secretKey t p h := by
  have hdata : pc.data.map Char.toLower = p.data.map Char.toLower :=
    congrArg String.data hpc
  apply String.ext
  simp [secretKey, lowerStr, String.data_append, hdata]

/-- Unfolding of handleRequestCards in the successful case: nonempty key
and nonempty secret. -/
theorem handleRequestCards_eq (t p s : String) (h : Nat) (store : SecretStore)
    (ht : t ≠ "") (hp : p ≠ "") (hs : s ≠ "") :
    handleRequestCards t p h s store =
      ⟨storeSet store (secretKey t p h) s, some (sha3_256 (utf8Encode s)),
       [RCEvent.persist (secretKey t p h) s,
        RCEvent.submit (sha3_256 (utf8Encode s))]⟩ := by
  unfold handleRequestCards saveSecret hashSecretToBytes
  rw [getSecretStorageKey_eq t p h ht hp]
  simp [hs]

/-- Loading with any re-casing of the player identity, right after a save
for the same (table, player, hand), returns the saved secret. -/
theorem loadStoredSecret_storeSet (t p pc s : String) (h : Nat) (store : SecretStore)
    (ht : t ≠ "") (hp : p ≠ "") (hpc : lowerStr pc = lowerStr p) :
    loadStoredSecret t pc h (storeSet store (secretKey t p h) s) = s := by
  have hpc2 : pc ≠ "" := lowerStr_ne_empty p pc hp hpc
  unfold loadStoredSecret
  rw [getSecretStorageKey_eq t pc h ht hpc2, secretKey_congr t p pc h hpc]
  simp [storeGet_storeSet_self]

/-- A secret generated from a nonempty crypto byte list is nonempty. -/
theorem generateSecret_ne_empty (bs : List Nat) (fb : String) (hbs : bs ≠ []) :
    generateSecret (some bs) fb ≠ "" := by
  cases bs with
  | nil => exact absurd rfl hbs
  | cons b rest =>
    intro hx
    have hdata := congrArg String.data hx
    simp [generateSecret] at hdata

/-! ## Claim theorems. -/

/-- C1: Round-trip of the commit protocol. For every table address,
player identity and hand number, after handleRequestCards generates a
secret s, persists it and submits the commitment, loading the secret back
for the same key with the player identity in any letter casing returns s,
and recomputing the commitment (hashSecretToBytes) from the loaded secret
yields exactly the submitted commitment. The nonemptiness hypotheses are
exactly the condition under which the storage write succeeds. -/
theorem c1_commit_roundtrip (t p pc s : String) (h : Nat) (store : SecretStore)
    (ht : t ≠ "") (hp : p ≠ "") (hs : s ≠ "") (hpc : lowerStr pc = lowerStr p) :
    loadStoredSecret t pc h (handleRequestCards t p h s store).store = s ∧
    hashSecretToBytes (loadStoredSecret t pc h (handleRequestCards t p h s store).store)
      = (handleRequestCards t p h s store).submitted := by
  have heq := handleRequestCards_eq t p s h store ht hp hs
  constructor
  · rw [heq]
    exact loadStoredSecret_storeSet t p pc s h store ht hp hpc
  · rw [heq]
    show hashSecretToBytes (loadStoredSecret t pc h (storeSet store (secretKey t p h) s))
      = some (sha3_256 (utf8Encode s))
    rw [loadStoredSecret_storeSet t p pc s h store ht hp hpc]
    simp [hashSecretToBytes, hs]

/-- Witness for C1 at a concrete table, player (re-cased on load), hand
and store. -/
theorem c1_commit_roundtrip_witness :
    loadStoredSecret "0xt" "0XAB" 3 (handleRequestCards "0xt" "0xAb" 3 "a1" []).store = "a1" ∧
    hashSecretToBytes (loadStoredSecret "0xt" "0XAB" 3 (handleRequestCards "0xt" "0xAb" 3 "a1" []).store)
      = (handleRequestCards "0xt" "0xAb" 3 "a1" []).submitted :=
  c1_commit_roundtrip "0xt" "0xAb" "0XAB" "a1" 3 [] (by decide) (by decide) (by decide)
    (by decide)

/-- C2 counterexample: the claim says a second action request while one is
in flight is rejected inside the action-invocation path without invoking
the collaborator call. In the code runLifecycleAction never inspects the
held slot: with the start action in flight, a commit request still invokes
the underlying collaborator call. -/
theorem c2_slot_counterexample :
    (runLifecycleAction ⟨some ActionName.start, none⟩ ActionName.commit
      (Except.ok ())).2 = true := rfl

/-- C2 amended: while an action is in flight, a second action cannot be
initiated through the UI, because every lifecycle affordance is disabled
(each disabled predicate is true whenever the ActionSlot is held) and the
auto-reveal guard refuses to arm; the invocation path itself performs no
rejection, so a direct runLifecycleAction call while an action is in
flight still invokes the collaborator call. -/
theorem c2_mutual_exclusion_via_ui (a : ActionName) (phase : Nat) (isPaused : Bool)
    (activeSeats : Nat) (canStartHand isActivePlayer hasCommitted : Bool)
    (inp : ARInputs) (tr : Nat) (st : Option String) (name : ActionName)
    (outcome : Except String Unit) (hinp : inp.activeAction = some a) :
    startDisabled phase isPaused activeSeats canStartHand (some a) = true ∧
    requestCardsDisabled phase isActivePlayer hasCommitted (some a) = true ∧
    controlsDisabled (some a) = true ∧
    autoRevealCond inp tr = false ∧
    (runLifecycleAction ⟨some a, st⟩ name outcome).2 = true := by
  refine ⟨?_, ?_, rfl, ?_, rfl⟩
  · simp [startDisabled]
  · simp [requestCardsDisabled]
  · simp [autoRevealCond, hinp]

/-- Witness for the amended C2 at a concrete in-flight action. -/
theorem c2_mutual_exclusion_via_ui_witness :
    startDisabled GAME_PHASES.WAITING false 3 true (some ActionName.leave) = true ∧
    requestCardsDisabled GAME_PHASES.COMMIT true false (some ActionName.leave) = true ∧
    controlsDisabled (some ActionName.leave) = true ∧
    autoRevealCond ⟨GAME_PHASES.REVEAL, "a1", 0, false, some ActionName.leave, 4⟩ 0 = false ∧
    (runLifecycleAction ⟨some ActionName.leave, none⟩ ActionName.sitout
      (Except.ok ())).2 = true :=
  c2_mutual_exclusion_via_ui ActionName.leave GAME_PHASES.WAITING false 3 true true false
    ⟨GAME_PHASES.REVEAL, "a1", 0, false, some ActionName.leave, 4⟩ 0 none ActionName.sitout
    (Except.ok ()) rfl

/-- C3: Request-cards execution sequence. The action (a) stores the
freshly generated secret under the (table, player, hand) key, replacing
any prior value in any prior store, (b) performs the SecretStore persist
event strictly before the collaborator commit event, and (c) submits
exactly the SHA3-256 commitment of the newly generated secret. -/
theorem c3_request_cards_sequence (t p fb : String) (h : Nat) (bs : List Nat)
    (store : SecretStore) (ht : t ≠ "") (hp : p ≠ "") (hbs : bs ≠ []) :
    loadStoredSecret t p h
        (handleRequestCards t p h (generateSecret (some bs) fb) store).store
      = generateSecret (some bs) fb ∧
    (handleRequestCards t p h (generateSecret (some bs) fb) store).events
      = [RCEvent.persist (secretKey t p h) (generateSecret (some bs) fb),
         RCEvent.submit (sha3_256 (utf8Encode (generateSecret (some bs) fb)))] ∧
    (handleRequestCards t p h (generateSecret (some bs) fb) store).submitted
      = some (sha3_256 (utf8Encode (generateSecret (some bs) fb))) := by
  have hs := generateSecret_ne_empty bs fb hbs
  have heq := handleRequestCards_eq t p (generateSecret (some bs) fb) h store ht hp hs
  refine ⟨?_, ?_, ?_⟩
  · rw [heq]
    exact loadStoredSecret_storeSet t p p (generateSecret (some bs) fb) h store ht hp rfl
  · rw [heq]
  · rw [heq]

/-- Witness for C3 at a concrete table, player, hand, randomness and a
store already holding an old secret under the same key. -/
theorem c3_request_cards_sequence_witness :
    loadStoredSecret "0xt" "0xab" 2
        (handleRequestCards "0xt" "0xab" 2 (generateSecret (some [171, 5]) "") [(secretKey "0xt" "0xab" 2, "old")]).store
      = generateSecret (some [171, 5]) "" ∧
    (handleRequestCards "0xt" "0xab" 2 (generateSecret (some [171, 5]) "") [(secretKey "0xt" "0xab" 2, "old")]).events
      = [RCEvent.persist (secretKey "0xt" "0xab" 2) (generateSecret (some [171, 5]) ""),
         RCEvent.submit (sha3_256 (utf8Encode (generateSecret (some [171, 5]) "")))] ∧
    (handleRequestCards "0xt" "0xab" 2 (generateSecret (some [171, 5]) "") [(secretKey "0xt" "0xab" 2, "old")]).submitted
      = some (sha3_256 (utf8Encode (generateSecret (some [171, 5]) ""))) :=
  c3_request_cards_sequence "0xt" "0xab" "" 2 [171, 5]
    [(secretKey "0xt" "0xab" 2, "old")] (by decide) (by decide) (by decide)

/-- C6: Poll snapshot atomicity on failure. If any of the three
sub-fetches fails, fetchStatus leaves the whole previous snapshot in
place; being a total function into Snapshot, it also propagates no
exception. -/
theorem c6_poll_snapshot_atomicity (prev : Snapshot)
    (c : Except String (List Bool)) (r : Except String (List Bool))
    (p : Except String (List Nat))
    (hfail : (∃ e, c = Except.error e) ∨ (∃ e, r = Except.error e)
      ∨ (∃ e, p = Except.error e)) :
    fetchStatus prev c r p = prev := by
  cases c <;> cases r <;> cases p <;>
    first
      | rfl
      | (rcases hfail with ⟨e, he⟩ | ⟨e, he⟩ | ⟨e, he⟩ <;> exact Except.noConfusion he)

/-- Witness for C6: a failed commit-bits sub-fetch retains the whole
previous snapshot even though the other two sub-fetches succeeded. -/
theorem c6_poll_snapshot_atomicity_witness :
    fetchStatus ⟨[true], [false], [2]⟩ (Except.error "boom")
      (Except.ok [true, true]) (Except.ok [0, 2]) = ⟨[true], [false], [2]⟩ :=
  c6_poll_snapshot_atomicity ⟨[true], [false], [2]⟩ (Except.error "boom")
    (Except.ok [true, true]) (Except.ok [0, 2]) (Or.inl ⟨"boom", rfl⟩)

/-- C7 counterexample: the claim quantifies over every secret string, but
for the empty string hashSecretToBytes returns null rather than the
SHA3-256 digest of the empty byte sequence. -/
theorem c7_codec_counterexample :
    hashSecretToBytes "" = none ∧
    hashSecretToBytes "" ≠ some (sha3_256 (utf8Encode "")) := by
  constructor
  · rfl
  · simp [hashSecretToBytes]

/-- C7 amended: for every nonempty secret string s, the commitment is the
SHA3-256 digest of the UTF-8 encoding of the text of s, a 32-byte output;
the codec is a pure function of s (hence deterministic: repeated
applications are definitionally the same bytes), and the empty string
yields no digest. -/
theorem c7_commitment_codec (s : String) (hs : s ≠ "") :
    hashSecretToBytes s = some (sha3_256 (utf8Encode s)) ∧
    (sha3_256 (utf8Encode s)).length = 32 := by
  refine ⟨?_, sha3_256_length _⟩
  simp [hashSecretToBytes, hs]

/-- Witness for the amended C7 at a concrete nonempty secret. -/
theorem c7_commitment_codec_witness :
    ("a1" : String) ≠ "" ∧
    (hashSecretToBytes "a1" = some (sha3_256 (utf8Encode "a1")) ∧
     (sha3_256 (utf8Encode "a1")).length = 32) :=
  ⟨by decide, c7_commitment_codec "a1" (by decide)⟩

/-- C8: Progress denominator totality. The denominator is the
participant-list length, falling back to the committed count when the
list is empty, falling back to 1 when both are zero; it is always
positive, so the progress ratio never divides by zero. -/
theorem c8_total_players (ps : List Nat) (cs : List Bool) :
    0 < totalPlayers ps cs ∧
    (ps ≠ [] → totalPlayers ps cs = ps.length) ∧
    (ps = [] → committedCount cs ≠ 0 → totalPlayers ps cs = committedCount cs) ∧
    (ps = [] → committedCount cs = 0 → totalPlayers ps cs = 1) := by
  refine ⟨?_, ?_, ?_, ?_⟩
  · unfold totalPlayers
    split
    · omega
    · split
      · omega
      · omega
  · intro hps
    have hlen : ps.length ≠ 0 := by simpa using hps
    simp [totalPlayers, hlen]
  · intro hps hc
    subst hps
    simp [totalPlayers, hc]
  · intro hps hc
    subst hps
    simp [totalPlayers, hc]

/-- Witness for C8: with an empty participant list and zero commits the
denominator is 1, in particular positive. -/
theorem c8_total_players_witness :
    totalPlayers [] [] = 1 ∧ 0 < totalPlayers [] [] :=
  ⟨(c8_total_players [] []).2.2.2 rfl rfl, (c8_total_players [] []).1⟩

/-! ## Auto-reveal machine lemmas. -/

/-- The at-most-once invariant for hand h: the reveal invocations for h
plus the pending timer for h never exceed one, and both are zero while
the ref differs from h. -/
def arInv (h : Nat) (s : ARState) : Prop :=
  (s.fires.count h + (if s.pending = some h then 1 else 0) ≤ 1) ∧
  (s.triggered ≠ h → s.fires.count h = 0 ∧ s.pending ≠ some h)

/-- One step preserves the at-most-once invariant when every evaluation
reads hand number h. -/
theorem arInv_step (h : Nat) (s : ARState) (e : AREvent) (he : evHand h e = true)
    (hi : arInv h s) : arInv h (arStep s e) := by
  obtain ⟨h1, hguard⟩ := hi
  cases e with
  | evaluate inp =>
    have hhand : inp.handNumber = h := by simpa [evHand] using he
    by_cases hc : autoRevealCond inp s.triggered = true
    · have htr : s.triggered ≠ h := by
        intro hx
        rw [autoRevealCond] at hc
        simp [hx, hhand] at hc
      obtain ⟨hc0, _⟩ := hguard htr
      have hstep : arStep s (AREvent.evaluate inp) =
          ⟨inp.handNumber, some inp.handNumber, s.fires⟩ := by
        simp [arStep, hc]
      rw [hstep]
      constructor
      · simp [arInv, hhand, hc0]
      · intro hx
        exact absurd hhand hx
    · have hcf : autoRevealCond inp s.triggered = false := by
        simpa using hc
      have hstep : arStep s (AREvent.evaluate inp) =
          ⟨s.triggered, none, s.fires⟩ := by
        simp [arStep, hcf]
      rw [hstep]
      constructor
      · simpa using le_trans (Nat.le_add_right _ _) h1
      · intro hx
        exact ⟨(hguard hx).1, by simp⟩
  | timerFire =>
    cases hp : s.pending with
    | none =>
      have hstep : arStep s AREvent.timerFire = s := by
        simp [arStep, hp]
      rw [hstep]
      exact ⟨h1, hguard⟩
    | some hf =>
      have hstep : arStep s AREvent.timerFire =
          ⟨s.triggered, none, s.fires ++ [hf]⟩ := by
        simp [arStep, hp]
      rw [hstep]
      rw [hp] at h1
      constructor
      · by_cases hh : hf = h
        · subst hh
          simp at h1
          simp [List.count_append]
          omega
        · simp [List.count_append, List.count_singleton, hh]
          simp [Option.some.injEq, hh] at h1
          omega
      · intro hx
        obtain ⟨hc0, hcp⟩ := hguard hx
        rw [hp] at hcp
        have hh : hf ≠ h := by
          intro hxx
          exact hcp (by rw [hxx])
        constructor
        · simp [List.count_append, List.count_cons, hc0, hh]
        · simp

/-- The at-most-once invariant is preserved by any run whose evaluations
all read hand number h. -/
theorem arInv_run (h : Nat) (s : ARState) :
    ∀ es : List AREvent, es.all (evHand h) = true → arInv h s →
      arInv h (arRun s es) := by
  intro es
  induction es generalizing s with
  | nil => intro _ hi; exact hi
  | cons e rest ih =>
    intro hes hi
    rw [List.all_cons, Bool.and_eq_true] at hes
    exact ih (arStep s e) hes.2 (arInv_step h s e hes.1 hi)

/-- A state with no pending timer whose ref blocks every evaluation of the
run is a fixpoint of the machine. -/
theorem arRun_fixed (s : ARState) (hp : s.pending = none) :
    ∀ es : List AREvent,
      (∀ inp, AREvent.evaluate inp ∈ es → autoRevealCond inp s.triggered = false) →
      arRun s es = s := by
  intro es
  induction es with
  | nil => intro _; rfl
  | cons e rest ih =>
    intro hb
    have hstep : arStep s e = s := by
      cases e with
      | evaluate inp =>
        have hc := hb inp (by simp)
        cases s with
        | mk tr pe fi =>
          simp only [ARState.pending] at hp
          subst hp
          simp_all [arStep]
      | timerFire =>
        cases s with
        | mk tr pe fi =>
          simp only [ARState.pending] at hp
          subst hp
          simp [arStep]
    show (e :: rest).foldl arStep s = s
    rw [List.foldl_cons, hstep]
    exact ih (fun inp hm => hb inp (List.mem_cons_of_mem _ hm))

/-- C4: Auto-reveal idempotence per hand. For every hand number h and
every sequence of effect re-evaluations and timer fires in which all
evaluations read hand number h (in particular whenever the stated
preconditions keep holding for h), the machine started at mount invokes
the reveal action at most once for h. -/
theorem c4_auto_reveal_at_most_once (h : Nat) (es : List AREvent)
    (hes : es.all (evHand h) = true) :
    (arRun ARState.init es).fires.count h ≤ 1 := by
  have hinit : arInv h ARState.init := by
    constructor
    · simp [ARState.init]
    · intro _
      exact ⟨by simp [ARState.init], by simp [ARState.init]⟩
  have hfin := (arInv_run h ARState.init es hes hinit).1
  exact le_trans (Nat.le_add_right _ _) hfin

/-- Witness for C4: three precondition-satisfying re-evaluations for hand
5 interleaved with two timer fires invoke the reveal action at most
once. -/
theorem c4_auto_reveal_at_most_once_witness :
    ([AREvent.evaluate ⟨GAME_PHASES.REVEAL, "a1", 0, false, none, 5⟩, AREvent.timerFire,
      AREvent.evaluate ⟨GAME_PHASES.REVEAL, "a1", 0, false, none, 5⟩, AREvent.timerFire,
      AREvent.evaluate ⟨GAME_PHASES.REVEAL, "a1", 0, false, none, 5⟩].all (evHand 5)
      = true) ∧
    (arRun ARState.init
      [AREvent.evaluate ⟨GAME_PHASES.REVEAL, "a1", 0, false, none, 5⟩, AREvent.timerFire,
       AREvent.evaluate ⟨GAME_PHASES.REVEAL, "a1", 0, false, none, 5⟩, AREvent.timerFire,
       AREvent.evaluate ⟨GAME_PHASES.REVEAL, "a1", 0, false, none, 5⟩]).fires.count 5 ≤ 1 :=
  ⟨by decide, c4_auto_reveal_at_most_once 5
    [AREvent.evaluate ⟨GAME_PHASES.REVEAL, "a1", 0, false, none, 5⟩, AREvent.timerFire,
     AREvent.evaluate ⟨GAME_PHASES.REVEAL, "a1", 0, false, none, 5⟩, AREvent.timerFire,
     AREvent.evaluate ⟨GAME_PHASES.REVEAL, "a1", 0, false, none, 5⟩] (by decide)⟩

/-- C5: Missing-secret handling in REVEAL. If no stored secret exists,
the auto-reveal machine never invokes the reveal action over any run
whose evaluations all read an absent secret, and the REVEAL card renders
the unrecoverable advisory (given that the player has not revealed and no
reveal action is in flight, which the absent secret itself guarantees for
the auto path). -/
theorem c5_missing_secret_reveal (es : List AREvent) (aa : Option ActionName)
    (hes : es.all evNoSecret = true) (haa : aa ≠ some ActionName.reveal) :
    (arRun ARState.init es).fires = [] ∧
    renderRevealCard false aa "" = RevealCardView.advisory := by
  constructor
  · have hfix : arRun ARState.init es = ARState.init := by
      apply arRun_fixed ARState.init rfl es
      intro inp hm
      rw [List.all_eq_true] at hes
      have he := hes _ hm
      have hsec : inp.storedSecret = "" := by simpa [evNoSecret] using he
      simp [autoRevealCond, hsec]
    rw [hfix]
    rfl
  · simp [renderRevealCard, haa]

/-- Witness for C5: a run of secretless REVEAL-phase evaluations and a
timer fire invokes no reveal, and the card shows the advisory. -/
theorem c5_missing_secret_reveal_witness :
    ([AREvent.evaluate ⟨GAME_PHASES.REVEAL, "", 0, false, none, 4⟩, AREvent.timerFire,
      AREvent.evaluate ⟨GAME_PHASES.REVEAL, "", 0, false, none, 4⟩].all evNoSecret
      = true) ∧
    ((none : Option ActionName) ≠ some ActionName.reveal) ∧
    ((arRun ARState.init
       [AREvent.evaluate ⟨GAME_PHASES.REVEAL, "", 0, false, none, 4⟩, AREvent.timerFire,
        AREvent.evaluate ⟨GAME_PHASES.REVEAL, "", 0, false, none, 4⟩]).fires = [] ∧
     renderRevealCard false none "" = RevealCardView.advisory) :=
  ⟨by decide, by decide, c5_missing_secret_reveal
    [AREvent.evaluate ⟨GAME_PHASES.REVEAL, "", 0, false, none, 4⟩, AREvent.timerFire,
     AREvent.evaluate ⟨GAME_PHASES.REVEAL, "", 0, false, none, 4⟩] none (by decide)
    (by decide)⟩

/-- C9: For hand number 0 (the default when no table state has arrived)
auto-reveal never fires: the already-triggered marker starts at 0, so the
guard can never pass, and every run whose evaluations read hand number 0
invokes no reveal action even when every other precondition holds. -/
theorem c9_hand_zero_never_fires (es : List AREvent)
    (hes : es.all (evHand 0) = true) :
    (∀ inp : ARInputs, inp.handNumber = 0 →
      autoRevealCond inp ARState.init.triggered = false) ∧
    (arRun ARState.init es).fires = [] := by
  have hcond : ∀ inp : ARInputs, inp.handNumber = 0 →
      autoRevealCond inp ARState.init.triggered = false := by
    intro inp hh
    simp [autoRevealCond, ARState.init, hh]
  refine ⟨hcond, ?_⟩
  have hfix : arRun ARState.init es = ARState.init := by
    apply arRun_fixed ARState.init rfl es
    intro inp hm
    rw [List.all_eq_true] at hes
    have he := hes _ hm
    have hh : inp.handNumber = 0 := by simpa [evHand] using he
    exact hcond inp hh
  rw [hfix]
  rfl

/-- Witness for C9: with hand number 0 and every other precondition
holding, repeated evaluations and a timer fire invoke no reveal. -/
theorem c9_hand_zero_never_fires_witness :
    ([AREvent.evaluate ⟨GAME_PHASES.REVEAL, "a1", 0, false, none, 0⟩, AREvent.timerFire,
      AREvent.evaluate ⟨GAME_PHASES.REVEAL, "a1", 0, false, none, 0⟩].all (evHand 0)
      = true) ∧
    (arRun ARState.init
      [AREvent.evaluate ⟨GAME_PHASES.REVEAL, "a1", 0, false, none, 0⟩, AREvent.timerFire,
       AREvent.evaluate ⟨GAME_PHASES.REVEAL, "a1", 0, false, none, 0⟩]).fires = [] :=
  ⟨by decide, (c9_hand_zero_never_fires
    [AREvent.evaluate ⟨GAME_PHASES.REVEAL, "a1", 0, false, none, 0⟩, AREvent.timerFire,
     AREvent.evaluate ⟨GAME_PHASES.REVEAL, "a1", 0, false, none, 0⟩] (by decide)).2⟩

/-- C10: The marker is set to the current hand number at arming time, in
the same step that arms the debounce timer (first conjunct); hence from
any state where the timer was canceled before firing (no pending timer,
marker equal to the hand number), every further run whose evaluations
read that hand number leaves the state unchanged, so the reveal action
is never invoked for that hand again within the mounted instance
(second conjunct). -/
theorem c10_cancel_disables_auto_reveal (h : Nat) (s : ARState) (es : List AREvent)
    (ht : s.triggered = h) (hpe : s.pending = none) (hes : es.all (evHand h) = true) :
    (∀ s0 : ARState, ∀ inp : ARInputs, autoRevealCond inp s0.triggered = true →
      arStep s0 (AREvent.evaluate inp)
        = ⟨inp.handNumber, some inp.handNumber, s0.fires⟩) ∧
    arRun s es = s := by
  constructor
  · intro s0 inp hc
    simp [arStep, hc]
  · apply arRun_fixed s hpe es
    intro inp hm
    rw [List.all_eq_true] at hes
    have he := hes _ hm
    have hh : inp.handNumber = h := by simpa [evHand] using he
    simp [autoRevealCond, ht, hh]

/-- Witness for C10: arming for hand 5 and then an evaluation outside the
REVEAL phase cancels the timer and leaves the marker at 5; from that
state, later precondition-satisfying evaluations for hand 5 and timer
fires change nothing, so no reveal is ever invoked. -/
theorem c10_cancel_disables_auto_reveal_witness :
    (arRun ARState.init
       [AREvent.evaluate ⟨GAME_PHASES.REVEAL, "a1", 0, false, none, 5⟩,
        AREvent.evaluate ⟨GAME_PHASES.PREFLOP, "a1", 0, false, none, 5⟩]
      = ⟨5, none, []⟩) ∧
    ([AREvent.evaluate ⟨GAME_PHASES.REVEAL, "a1", 0, false, none, 5⟩, AREvent.timerFire,
      AREvent.evaluate ⟨GAME_PHASES.REVEAL, "a1", 0, false, none, 5⟩].all (evHand 5)
      = true) ∧
    arRun ⟨5, none, []⟩
      [AREvent.evaluate ⟨GAME_PHASES.REVEAL, "a1", 0, false, none, 5⟩, AREvent.timerFire,
       AREvent.evaluate ⟨GAME_PHASES.REVEAL, "a1", 0, false, none, 5⟩] = ⟨5, none, []⟩ :=
  ⟨by decide, by decide, (c10_cancel_disables_auto_reveal 5 ⟨5, none, []⟩
    [AREvent.evaluate ⟨GAME_PHASES.REVEAL, "a1", 0, false, none, 5⟩, AREvent.timerFire,
     AREvent.evaluate ⟨GAME_PHASES.REVEAL, "a1", 0, false, none, 5⟩] rfl rfl (by decide)).2⟩
